import Mathlib

/-!
Shallow embedding of the red-circle-bot core (src/main.py): the JSON-backed
durable store (`load_json` / `save_json`), the activity repository
(`ensure_user`, report/task appends, lookups), the tip heuristic
(`generate_tip`), the `show` handler and the daily broadcast
(`daily_summary`).  Python dicts are modelled as insertion-ordered
association lists; machine state touched through files is modelled as
explicit `Option String` file contents.
-/

set_option linter.unusedVariables false

namespace RedCircleBot

/-! ## Python string primitives used by the handlers -/

/-- One step of Python `str.replace(old, new)` with fuel: scans left to
right, replacing non-overlapping occurrences of `pat`.  Fuel is the length
of the scanned list, which bounds the number of steps because each step
consumes at least one character (`pat` is non-empty at every call site). -/
def replaceAllFuel (pat rep : List Char) : Nat → List Char → List Char
  | 0, s => s
  | _ + 1, [] => []
  | fuel + 1, c :: cs =>
    if pat.isPrefixOf (c :: cs) ∧ pat ≠ [] then
      rep ++ replaceAllFuel pat rep fuel ((c :: cs).drop pat.length)
    else
      c :: replaceAllFuel pat rep fuel cs

/-- Python `s.replace(pat, rep)` (all occurrences, left to right,
non-overlapping), for non-empty `pat`. -/
def pyReplace (s pat rep : String) : String :=
  String.mk (replaceAllFuel pat.data rep.data s.data.length s.data)

/-- Whether `pat` occurs as a contiguous substring of `s`. -/
def containsSub (pat : List Char) : List Char → Bool
  | [] => pat.isPrefixOf []
  | c :: cs => pat.isPrefixOf (c :: cs) || containsSub pat cs

/-- String-level substring test: does `s` contain `pat`? -/
def containsSubStr (s pat : String) : Bool :=
  containsSub pat.data s.data

/-- Python `str.strip()`: remove leading and trailing whitespace. -/
def pyStrip (s : String) : String :=
  String.mk (((s.data.dropWhile Char.isWhitespace).reverse.dropWhile
    Char.isWhitespace).reverse)

/-- Python `str.split()` with fuel: split on whitespace runs, dropping
empty pieces.  Fuel is the length of the list being scanned. -/
def pyWordsFuel : Nat → List Char → List String
  | 0, _ => []
  | _ + 1, [] => []
  | fuel + 1, c :: cs =>
    if c.isWhitespace then pyWordsFuel fuel cs
    else
      String.mk ((c :: cs).takeWhile (fun d => !d.isWhitespace)) ::
        pyWordsFuel fuel ((c :: cs).dropWhile (fun d => !d.isWhitespace))

/-- Python `str.split()` (no argument): whitespace-run split. -/
def pyWords (s : String) : List String :=
  pyWordsFuel s.data.length s.data

/-- `s[:k]` on a Python string. -/
def strTake (s : String) (k : Nat) : String :=
  String.mk (s.data.take k)

/-- Python `l[-n:]`: the last `n` elements (all of them when fewer). -/
def lastN {α : Type} (n : Nat) (l : List α) : List α :=
  l.drop (l.length - n)

/-! ## Python `dict` model: insertion-ordered association list -/

/-- `d.get(k)` as `Option`: the value stored at key `k`. -/
def dictGet? {α : Type} : List (String × α) → String → Option α
  | [], _ => none
  | (k, v) :: rest, key => if k = key then some v else dictGet? rest key

/-- `d.get(k, default)`. -/
def dictGetD {α : Type} (d : List (String × α)) (key : String) (dflt : α) : α :=
  (dictGet? d key).getD dflt

/-- `k in d`. -/
def dictContains {α : Type} (d : List (String × α)) (key : String) : Bool :=
  (dictGet? d key).isSome

/-- `d[k] = v`: update in place when the key exists (keeping its position),
append at the end otherwise — Python dict insertion-order semantics. -/
def dictSet {α : Type} : List (String × α) → String → α → List (String × α)
  | [], key, v => [(key, v)]
  | (k, w) :: rest, key, v =>
    if k = key then (key, v) :: rest else (k, w) :: dictSet rest key v

/-! ## Data model (src/main.py records) -/

/-- A report record `{"text": ..., "time": ...}` (main.py lines 99-102). -/
structure ReportRec where
  text : String
  time : String
  deriving DecidableEq, Repr

/-- A task record `{"title": ..., "done": ..., "time": ...}`
(main.py lines 141-145). -/
structure TaskRec where
  title : String
  done : Bool
  time : String
  deriving DecidableEq, Repr

/-- The `users` document: user-id string to display name. -/
abbrev UsersDoc := List (String × String)

/-- The `reports` document: user-id string to report sequence. -/
abbrev ReportsDoc := List (String × List ReportRec)

/-- The `tasks` document: user-id string to task sequence. -/
abbrev TasksDoc := List (String × List TaskRec)

/-! ## Insight engine (main.py lines 56-78) -/

/-- The fixed backlog tip string (main.py line 72). -/
def backlogTip : String :=
  "چند تا کار عقب‌افتاده داری، پیشنهاد می‌کنم فردا اول صبح همون‌ها رو جمع کنی 🌱"

/-- The fixed low-volume tip string (main.py line 74). -/
def lowVolumeTip : String :=
  "گزارش‌هات کم بود امروز؛ پیشنهاد می‌کنم چند کار کوچیک هم بنویسی تا جریان کارت منظم‌تر باشه ⚡️"

/-- The fixed steady-pace tip string (main.py line 76). -/
def steadyTip : String :=
  "کارها مرتب بود! فقط سعی کن وقفه‌های طولانی بین کارها رو کمتر کنی تا انرژی‌ت بهتر بمونه 💪"

/-- The word-frequency tally over the last five reports
(main.py lines 62-69); computed but unused by the decision. -/
def wordTally (user_reports : List ReportRec) : List (String × Nat) :=
  (lastN 5 user_reports).foldl
    (fun acc r =>
      (pyWords r.text).foldl
        (fun a word => dictSet a word (dictGetD a word 0 + 1)) acc)
    []

/-- The pending-task count used by the tip decision:
`len([t for t in user_tasks if not t["done"]])`. -/
def pendingCount (tasks : TasksDoc) (uid : String) : Nat :=
  ((dictGetD tasks uid []).filter (fun t => !t.done)).length

/-- The report volume used by the tip decision: `len(user_reports)`. -/
def reportVolume (reports : ReportsDoc) (uid : String) : Nat :=
  (dictGetD reports uid []).length

/-- `generate_tip` (main.py lines 56-78). -/
def generate_tip (reports : ReportsDoc) (tasks : TasksDoc) (user_id : String) :
    String :=
  let user_reports := dictGetD reports user_id []
  let user_tasks := dictGetD tasks user_id []
  let pending := user_tasks.filter (fun t => !t.done)
  let repeated := wordTally user_reports
  let idle_time : Nat := 0
  let volume := user_reports.length
  if pending.length > 3 then backlogTip
  else if volume < 2 then lowVolumeTip
  else steadyTip

/-! ## Durable store (main.py lines 25-37)

`json.dump` / `json.load` are modelled by a serialization scheme: an
encoder, a decoder, and the round-trip law the JSON library provides.
The backing file is an `Option String` (`none` = file absent). -/

/-- A serialization scheme standing for `json.dump` / `json.load` on one
document type. -/
structure SerScheme (α : Type) where
  ser : α → String
  parse : String → Option α
  roundtrip : ∀ a, parse (ser a) = some a

/-- How far a write gets before the process is interrupted:
`complete` writes everything, `failAt k` raises after `k` characters. -/
inductive WriteOutcome where
  | complete
  | failAt (k : Nat)
  deriving DecidableEq, Repr

/-- `save_json` (main.py lines 35-37): `open(path, "w")` truncates the file
in place, then the serialized document is written.  Returns the resulting
file content and whether the write completed without error.  An
interrupted write leaves the truncated partial content behind — there is
no temporary file and no rename. -/
def save_json {α : Type} (S : SerScheme α) (data : α) (fs : Option String)
    (w : WriteOutcome) : Option String × Bool :=
  match w with
  | .complete => (some (S.ser data), true)
  | .failAt k => (some (strTake (S.ser data) k), false)

/-- Modelled from the spec: the atomic-replace `save` the spec prescribes
("write to a temporary location, then rename/swap into place"), which is
absent from src/main.py.  A failed write leaves the prior file content
untouched. -/
def save_json_spec_atomic {α : Type} (S : SerScheme α) (data : α)
    (fs : Option String) (w : WriteOutcome) : Option String × Bool :=
  match w with
  | .complete => (some (S.ser data), true)
  | .failAt _ => (fs, false)

/-- `load_json` (main.py lines 25-33): when the file is absent, first
persist the default; then parse, and on any parse failure persist the
default and return it.  Returns the value handed to the caller and the
resulting file content.  The internal saves are modelled as completing. -/
def load_json {α : Type} (S : SerScheme α) (dflt : α) (fs : Option String) :
    α × Option String :=
  let s := match fs with
    | none => S.ser dflt
    | some s0 => s0
  match S.parse s with
  | some d => (d, some s)
  | none => (dflt, some (S.ser dflt))

/-- A concrete two-document serialization scheme used to exercise the
store on explicit inputs. -/
def boolScheme : SerScheme Bool where
  ser := fun b => if b then "true" else "false"
  parse := fun s =>
    if s = "true" then some true
    else if s = "false" then some false
    else none
  roundtrip := by intro a; cases a <;> rfl

/-! ## Activity repository (main.py lines 43-50, 89-148) -/

/-- `get_username` (main.py lines 43-44). -/
def get_username (users : UsersDoc) (user_id : String) : String :=
  dictGetD users user_id "Unknown"

/-- `ensure_user` (main.py lines 46-50): insert `{id: name}` iff the id is
absent, then persist.  The `Bool` records whether a persistence write
happened. -/
def ensure_user (users : UsersDoc) (user_id name : String) :
    UsersDoc × Bool :=
  if dictContains users user_id then (users, false)
  else (dictSet users user_id name, true)

/-- The mutation performed by the `report` handler on the `reports`
document (main.py lines 96-103): create the sequence when absent, then
append `{"text": text, "time": time}`. -/
def report_store (reports : ReportsDoc) (uid text time : String) :
    ReportsDoc :=
  let reports1 :=
    if dictContains reports uid then reports else dictSet reports uid []
  dictSet reports1 uid
    (dictGetD reports1 uid [] ++ [ReportRec.mk text time])

/-- The mutation performed by the `add_task` handler on the `tasks`
document (main.py lines 138-146): create the sequence when absent, then
append `{"title": text, "done": False, "time": time}`. -/
def task_store (tasks : TasksDoc) (uid text time : String) : TasksDoc :=
  let tasks1 :=
    if dictContains tasks uid then tasks else dictSet tasks uid []
  dictSet tasks1 uid
    (dictGetD tasks1 uid [] ++ [TaskRec.mk text false time])

/-- The `report` handler (main.py lines 89-105): `ensure_user`, strip
every occurrence of `"/report "` from the message text, append the
record.  Returns the updated users document, whether users was persisted,
and the updated reports document. -/
def report_handler (users : UsersDoc) (reports : ReportsDoc)
    (uid senderName msgText time : String) :
    (UsersDoc × Bool) × ReportsDoc :=
  (ensure_user users uid senderName,
   report_store reports uid (pyReplace msgText "/report " "") time)

/-- The `add_task` handler (main.py lines 131-148): `ensure_user`, strip
every occurrence of `"/task "` from the message text, append the task. -/
def add_task_handler (users : UsersDoc) (tasks : TasksDoc)
    (uid senderName msgText time : String) :
    (UsersDoc × Bool) × TasksDoc :=
  (ensure_user users uid senderName,
   task_store tasks uid (pyReplace msgText "/task " "") time)

/-- `list_reports` (`reports.get(uid, [])`, main.py lines 58 and 123). -/
def list_reports (reports : ReportsDoc) (uid : String) : List ReportRec :=
  dictGetD reports uid []

/-- `list_tasks` (`tasks.get(uid, [])`, main.py lines 59 and 154). -/
def list_tasks (tasks : TasksDoc) (uid : String) : List TaskRec :=
  dictGetD tasks uid []

/-- The reverse name lookup inlined in `show_reports` (main.py lines
114-121): first entry of `users` in iteration order whose stored name
equals the queried name exactly; `none` when the for-else falls through. -/
def resolve_id_by_name (users : UsersDoc) (name : String) : Option String :=
  match users with
  | [] => none
  | (uid, nm) :: rest =>
    if nm = name then some uid else resolve_id_by_name rest name

/-- The three reply shapes of the `show` handler. -/
inductive ShowReply where
  | notFound
  | noReports
  | shown (txt : String)
  deriving DecidableEq, Repr

/-- Python `"\n\n".join(l)`. -/
def joinBlank : List String → String
  | [] => ""
  | [s] => s
  | s :: rest => s ++ "\n\n" ++ joinBlank rest

/-- The `show_reports` handler (main.py lines 107-129): strip
`"/show "` occurrences and surrounding whitespace from the message, fall
back to the sender's first name only when the result is empty, resolve
the name, and reply with the last 10 reports. -/
def show_reports (users : UsersDoc) (reports : ReportsDoc)
    (senderName msgText : String) : ShowReply :=
  let target := pyStrip (pyReplace msgText "/show " "")
  let name_to_find := if target = "" then senderName else target
  match resolve_id_by_name users name_to_find with
  | none => ShowReply.notFound
  | some selected =>
    let user_reports := dictGetD reports selected []
    if user_reports = [] then ShowReply.noReports
    else
      ShowReply.shown
        ("آخرین گزارش‌ها:\n\n" ++
          joinBlank ((lastN 10 user_reports).map (fun r => "- " ++ r.text)))

/-! ## Scheduler / broadcaster (main.py lines 150-167) -/

/-- The summary text built for one user inside `daily_summary`
(main.py lines 159-162). -/
def summary_text (reports : ReportsDoc) (tasks : TasksDoc)
    (uid name : String) : String :=
  let user_reports := dictGetD reports uid []
  let user_tasks := dictGetD tasks uid []
  let pending := user_tasks.filter (fun t => !t.done)
  let tip := generate_tip reports tasks uid
  "خلاصه روزانه " ++ name ++ ":\n\n" ++
  "تعداد گزارش‌ها: " ++ toString user_reports.length ++ "\n" ++
  "کارهای عقب‌افتاده: " ++ toString pending.length ++ "\n\n" ++
  "پیشنهاد امروز:\n" ++ tip

/-- `daily_summary` (main.py lines 150-167): iterate the users snapshot in
order; each delivery is attempted inside `try/except: pass`, so a failure
is discarded and iteration continues.  `deliverOk uid` models whether
`send_message` to that user succeeds; the result lists the deliveries
that were made, in order. -/
def daily_summary (users : UsersDoc) (reports : ReportsDoc)
    (tasks : TasksDoc) (deliverOk : String → Bool) :
    List (String × String) :=
  match users with
  | [] => []
  | (uid, name) :: rest =>
    let text := summary_text reports tasks uid name
    if deliverOk uid then
      (uid, text) :: daily_summary rest reports tasks deliverOk
    else
      daily_summary rest reports tasks deliverOk

/-! ## Dictionary lemmas -/

theorem dictGet?_set_self {α : Type} (d : List (String × α)) (k : String)
    (v : α) : dictGet? (dictSet d k v) k = some v := by
  induction d with
  | nil => simp [dictSet, dictGet?]
  | cons p rest ih =>
    obtain ⟨k0, v0⟩ := p
    by_cases h : k0 = k
    · simp [dictSet, dictGet?, h]
    · simp [dictSet, dictGet?, h, ih]

theorem dictGet?_of_not_contains {α : Type} (d : List (String × α))
    (k : String) (h : dictContains d k = false) : dictGet? d k = none := by
  unfold dictContains at h
  cases hd : dictGet? d k with
  | none => rfl
  | some v => rw [hd] at h; simp at h

theorem dictContains_set_self {α : Type} (d : List (String × α))
    (k : String) (v : α) : dictContains (dictSet d k v) k = true := by
  unfold dictContains
  rw [dictGet?_set_self]
  rfl

/-- `generate_tip` written as the bare three-way decision; the let-bound
word tally and idle time do not feed it. -/
theorem generate_tip_eq_decision (reports : ReportsDoc) (tasks : TasksDoc)
    (uid : String) :
    generate_tip reports tasks uid =
      if pendingCount tasks uid > 3 then backlogTip
      else if reportVolume reports uid < 2 then lowVolumeTip
      else steadyTip := rfl

/-! ## C1: tip decision table -/

/-- C1: the tip decision is a three-rule priority table over the snapshot:
more than 3 pending tasks gives the backlog tip; otherwise fewer than 2
total reports gives the low-volume tip; otherwise the steady-pace tip —
the backlog check strictly precedes the volume check. -/
theorem c1_tip_decision_table (reports : ReportsDoc) (tasks : TasksDoc)
    (uid : String) :
    (pendingCount tasks uid > 3 →
      generate_tip reports tasks uid = backlogTip) ∧
    (pendingCount tasks uid ≤ 3 → reportVolume reports uid < 2 →
      generate_tip reports tasks uid = lowVolumeTip) ∧
    (pendingCount tasks uid ≤ 3 → 2 ≤ reportVolume reports uid →
      generate_tip reports tasks uid = steadyTip) := by
  rw [generate_tip_eq_decision]
  refine ⟨fun h => ?_, fun h1 h2 => ?_, fun h1 h2 => ?_⟩
  · rw [if_pos h]
  · rw [if_neg (by omega), if_pos h2]
  · rw [if_neg (by omega), if_neg (by omega)]

/-- C1 witness: pending=4, volume=10 gives backlog; pending=0, volume=1
gives low-volume; pending=1, volume=5 gives steady-pace. -/
theorem c1_tip_decision_table_witness :
    generate_tip [("u", List.replicate 10 (ReportRec.mk "r" "t"))]
        [("u", List.replicate 4 (TaskRec.mk "a" false "t"))] "u"
      = backlogTip ∧
    generate_tip [("v", [ReportRec.mk "r" "t"])] [] "v" = lowVolumeTip ∧
    generate_tip [("w", List.replicate 5 (ReportRec.mk "r" "t"))]
        [("w", [TaskRec.mk "a" false "t"])] "w" = steadyTip :=
  ⟨(c1_tip_decision_table _ _ "u").1 (by decide),
   (c1_tip_decision_table _ _ "v").2.1 (by decide) (by decide),
   (c1_tip_decision_table _ _ "w").2.2 (by decide) (by decide)⟩

/-! ## C7: generate_tip is total on unknown ids -/

/-- C7: for an id with no entry in the reports or tasks documents,
`generate_tip` evaluates with pending count 0 and volume 0 and returns
the low-volume tip. -/
theorem c7_generate_tip_unknown (reports : ReportsDoc) (tasks : TasksDoc)
    (uid : String) (h1 : dictGet? reports uid = none)
    (h2 : dictGet? tasks uid = none) :
    pendingCount tasks uid = 0 ∧ reportVolume reports uid = 0 ∧
      generate_tip reports tasks uid = lowVolumeTip := by
  have hp : pendingCount tasks uid = 0 := by
    unfold pendingCount dictGetD
    rw [h2]
    rfl
  have hv : reportVolume reports uid = 0 := by
    unfold reportVolume dictGetD
    rw [h1]
    rfl
  refine ⟨hp, hv, ?_⟩
  rw [generate_tip_eq_decision, if_neg (by omega), if_pos (by omega)]

/-- C7 witness: `generate_tip` on the id "nonexistent" over empty
documents returns the low-volume tip. -/
theorem c7_generate_tip_unknown_witness :
    pendingCount [] "nonexistent" = 0 ∧
    reportVolume [] "nonexistent" = 0 ∧
    generate_tip [] [] "nonexistent" = lowVolumeTip :=
  c7_generate_tip_unknown [] [] "nonexistent" rfl rfl

/-! ## C5: ensure_user is idempotent -/

/-- C5: `ensure_user` inserts only when the id is absent (persisting once),
is a silent no-op when the id is present, and a second call with the same
id — whatever the name — changes nothing and performs no write. -/
theorem c5_ensure_user_idempotent (users : UsersDoc) (id n1 n2 : String) :
    (dictContains users id = true → ensure_user users id n1 = (users, false)) ∧
    (dictContains users id = false →
      (ensure_user users id n1).1 = dictSet users id n1 ∧
      (ensure_user users id n1).2 = true ∧
      dictGet? (ensure_user users id n1).1 id = some n1) ∧
    ensure_user (ensure_user users id n1).1 id n2 =
      ((ensure_user users id n1).1, false) := by
  refine ⟨?_, ?_, ?_⟩
  · intro h
    unfold ensure_user
    rw [if_pos h]
  · intro h
    have h' : ¬(dictContains users id = true) := by simp [h]
    unfold ensure_user
    rw [if_neg h']
    exact ⟨rfl, rfl, dictGet?_set_self users id n1⟩
  · by_cases h : dictContains users id = true
    · have e1 : ensure_user users id n1 = (users, false) := by
        unfold ensure_user
        rw [if_pos h]
      rw [e1]
      unfold ensure_user
      rw [if_pos h]
    · have e1 : (ensure_user users id n1).1 = dictSet users id n1 := by
        unfold ensure_user
        rw [if_neg h]
      rw [e1]
      unfold ensure_user
      rw [if_pos (dictContains_set_self users id n1)]

/-- C5 witness: inserting id "1" into a store holding only id "2" appends
it and records a write; the repeated call with a different name changes
nothing and records no write. -/
theorem c5_ensure_user_idempotent_witness :
    (ensure_user [("2", "Bob")] "1" "Ali").1 = dictSet [("2", "Bob")] "1" "Ali" ∧
    (ensure_user [("2", "Bob")] "1" "Ali").2 = true ∧
    ensure_user (ensure_user [("2", "Bob")] "1" "Ali").1 "1" "Zed" =
      ((ensure_user [("2", "Bob")] "1" "Ali").1, false) :=
  ⟨((c5_ensure_user_idempotent [("2", "Bob")] "1" "Ali" "Zed").2.1 rfl).1,
   ((c5_ensure_user_idempotent [("2", "Bob")] "1" "Ali" "Zed").2.1 rfl).2.1,
   (c5_ensure_user_idempotent [("2", "Bob")] "1" "Ali" "Zed").2.2⟩

/-! ## C9: name resolution is exact first match -/

/-- Entries whose name does not match are skipped by the reverse lookup. -/
theorem resolve_skip (pre rest : UsersDoc) (name : String)
    (h : ∀ p ∈ pre, p.2 ≠ name) :
    resolve_id_by_name (pre ++ rest) name = resolve_id_by_name rest name := by
  induction pre with
  | nil => rfl
  | cons p pre ih =>
    obtain ⟨uid, nm⟩ := p
    have hne : nm ≠ name := h (uid, nm) (List.mem_cons_self _ _)
    simp only [List.cons_append, resolve_id_by_name, if_neg hne]
    exact ih (fun q hq => h q (List.mem_cons_of_mem _ hq))

/-- The reverse lookup misses exactly when no stored name matches. -/
theorem resolve_none_iff (users : UsersDoc) (name : String) :
    resolve_id_by_name users name = none ↔ ∀ p ∈ users, p.2 ≠ name := by
  induction users with
  | nil => simp [resolve_id_by_name]
  | cons p rest ih =>
    obtain ⟨uid, nm⟩ := p
    by_cases h : nm = name
    · constructor
      · intro hc
        simp [resolve_id_by_name, h] at hc
      · intro hall
        exact absurd h (hall (uid, nm) (List.mem_cons_self _ _))
    · simp [resolve_id_by_name, h, ih]

/-- C9: `resolve_id_by_name` returns the id of the first entry in
insertion order whose stored name equals the query exactly, and reports a
miss precisely when no entry's name matches; with duplicate names the
earlier-inserted id wins. -/
theorem c9_resolve_first_match (users : UsersDoc) (name : String) :
    (∀ pre id nm post, users = pre ++ (id, nm) :: post → nm = name →
        (∀ p ∈ pre, p.2 ≠ name) →
        resolve_id_by_name users name = some id) ∧
    (resolve_id_by_name users name = none ↔ ∀ p ∈ users, p.2 ≠ name) := by
  refine ⟨?_, resolve_none_iff users name⟩
  rintro pre id nm post rfl hnm hpre
  rw [resolve_skip pre _ name hpre]
  simp [resolve_id_by_name, hnm]

/-- C9 witness: with two distinct ids sharing the name "Ana", the
earlier-inserted id "1" is returned. -/
theorem c9_resolve_first_match_witness :
    resolve_id_by_name [("1", "Ana"), ("2", "Ana")] "Ana" = some "1" :=
  (c9_resolve_first_match [("1", "Ana"), ("2", "Ana")] "Ana").1 []
    "1" "Ana" [("2", "Ana")] rfl rfl (by simp)

/-! ## C6: report history is append-only -/

/-- One `report` mutation appends exactly one record at the end of the
id's sequence. -/
theorem report_store_list (d : ReportsDoc) (uid t tm : String) :
    list_reports (report_store d uid t tm) uid =
      list_reports d uid ++ [ReportRec.mk t tm] := by
  unfold report_store
  by_cases h : dictContains d uid = true
  · simp only [if_pos h]
    unfold list_reports dictGetD
    rw [dictGet?_set_self]
    rfl
  · have hf : dictContains d uid = false := by
      cases hb : dictContains d uid
      · rfl
      · exact absurd hb h
    have hnone := dictGet?_of_not_contains d uid hf
    simp only [if_neg h]
    unfold list_reports dictGetD
    simp [dictGet?_set_self, hnone]

/-- A run of `report` mutations for one id, in call order. -/
def append_reports_run (reports : ReportsDoc) (uid : String)
    (entries : List (String × String)) : ReportsDoc :=
  entries.foldl (fun d e => report_store d uid e.1 e.2) reports

/-- C6: after N `report` calls for an id, that id's stored sequence is the
prior sequence followed by the N new records in call order; in particular,
from an empty history it has exactly N elements whose texts are the
submitted texts, and no call rewrites a previously stored element. -/
theorem c6_report_append_only (reports : ReportsDoc) (uid : String)
    (entries : List (String × String)) :
    list_reports (append_reports_run reports uid entries) uid =
      list_reports reports uid ++
        entries.map (fun e => ReportRec.mk e.1 e.2) ∧
    (list_reports reports uid = [] →
      (list_reports (append_reports_run reports uid entries) uid).length =
        entries.length ∧
      (list_reports (append_reports_run reports uid entries) uid).map
          (fun r => r.text) =
        entries.map (fun e => e.1)) := by
  have main : ∀ d : ReportsDoc,
      list_reports (append_reports_run d uid entries) uid =
        list_reports d uid ++
          entries.map (fun e => ReportRec.mk e.1 e.2) := by
    induction entries with
    | nil => intro d; simp [append_reports_run]
    | cons e rest ih =>
      intro d
      rw [show append_reports_run d uid (e :: rest) =
            append_reports_run (report_store d uid e.1 e.2) uid rest from rfl]
      rw [ih (report_store d uid e.1 e.2), report_store_list]
      simp
  refine ⟨main reports, fun hemp => ?_⟩
  rw [main reports, hemp]
  simp

/-- C6 witness: two appends to a fresh id store exactly the two texts in
call order. -/
theorem c6_report_append_only_witness :
    list_reports (append_reports_run [] "1" [("a", "t1"), ("b", "t2")]) "1"
      = [ReportRec.mk "a" "t1", ReportRec.mk "b" "t2"] ∧
    (list_reports (append_reports_run [] "1" [("a", "t1"), ("b", "t2")])
        "1").length = 2 := by
  have h := c6_report_append_only [] "1" [("a", "t1"), ("b", "t2")]
  refine ⟨?_, (h.2 rfl).1⟩
  rw [h.1]
  rfl

/-! ## C3: load on absent and load on invalid content agree -/

/-- C3: `load_json` behaves identically on an absent backing file and on
one whose content fails to parse — both persist the serialized default
`{}` back and return the default to the caller, raising nothing. -/
theorem c3_load_absent_eq_invalid {α : Type} (S : SerScheme α) (dflt : α)
    (s : String) (h : S.parse s = none) :
    load_json S dflt none = (dflt, some (S.ser dflt)) ∧
    load_json S dflt (some s) = (dflt, some (S.ser dflt)) := by
  constructor
  · simp [load_json, S.roundtrip dflt]
  · simp [load_json, h]

/-- C3 witness: the concrete scheme on an absent file and on the
unparseable content "garbage" both reset to the serialized default and
return it. -/
theorem c3_load_absent_eq_invalid_witness :
    load_json boolScheme false none = (false, some (boolScheme.ser false)) ∧
    load_json boolScheme false (some "garbage") =
      (false, some (boolScheme.ser false)) :=
  c3_load_absent_eq_invalid boolScheme false "garbage" (by decide)

/-! ## C2: save is not atomic — an interrupted write corrupts the file -/

/-- C2 counterexample: with the prior file holding a valid document
(`true`), a save of `false` interrupted at 0 written characters reports
the error, but a subsequent load returns the default (`false`), not the
prior document (`true`); the spec's atomic-replace discipline would have
preserved it. -/
theorem c2_save_not_atomic_counterexample :
    (save_json boolScheme false (some (boolScheme.ser true))
        (WriteOutcome.failAt 0)).2 = false ∧
    (load_json boolScheme false
        (save_json boolScheme false (some (boolScheme.ser true))
          (WriteOutcome.failAt 0)).1).1 ≠ true ∧
    (load_json boolScheme false
        (save_json boolScheme false (some (boolScheme.ser true))
          (WriteOutcome.failAt 0)).1).1 = false ∧
    (load_json boolScheme false
        (save_json_spec_atomic boolScheme false (some (boolScheme.ser true))
          (WriteOutcome.failAt 0)).1).1 = true := by
  decide

/-- C2 (amended): `save_json` truncates and overwrites in place; a failed
write is reported to the caller but leaves a partial file, and a
subsequent load resets to the default document instead of observing the
prior one.  A completed save followed by a load round-trips. -/
theorem c2_save_overwrite_semantics {α : Type} (S : SerScheme α)
    (d0 d1 dflt : α) (k : Nat)
    (hk : S.parse (strTake (S.ser d1) k) = none) :
    (save_json S d1 (some (S.ser d0)) (WriteOutcome.failAt k)).2 = false ∧
    load_json S dflt
        (save_json S d1 (some (S.ser d0)) (WriteOutcome.failAt k)).1 =
      (dflt, some (S.ser dflt)) ∧
    save_json S d1 (some (S.ser d0)) WriteOutcome.complete =
      (some (S.ser d1), true) ∧
    (load_json S dflt (some (S.ser d1))).1 = d1 := by
  refine ⟨rfl, ?_, rfl, ?_⟩
  · simp [save_json, load_json, hk]
  · simp [load_json, S.roundtrip]

/-- C2 witness: saving `false` over a file holding `true`, interrupted
after 1 character, reports failure and a reload yields the default, while
the completed save round-trips. -/
theorem c2_save_overwrite_semantics_witness :
    (save_json boolScheme false (some (boolScheme.ser true))
        (WriteOutcome.failAt 1)).2 = false ∧
    load_json boolScheme false
        (save_json boolScheme false (some (boolScheme.ser true))
          (WriteOutcome.failAt 1)).1 =
      (false, some (boolScheme.ser false)) ∧
    save_json boolScheme false (some (boolScheme.ser true))
        WriteOutcome.complete = (some (boolScheme.ser false), true) ∧
    (load_json boolScheme false (some (boolScheme.ser false))).1 = false :=
  c2_save_overwrite_semantics boolScheme true false false 1 (by decide)

/-! ## C4: broadcast is failure-isolated per recipient -/

/-- C4: a broadcast run delivers the summary exactly to the users whose
delivery succeeds, once each, in snapshot order — a failing delivery is
discarded and the run continues; concretely, with 3 users where the 2nd
delivery raises, the 1st and 3rd each receive their summary exactly once
and the run completes. -/
theorem c4_daily_summary_isolated (users : UsersDoc) (reports : ReportsDoc)
    (tasks : TasksDoc) (deliverOk : String → Bool) :
    daily_summary users reports tasks deliverOk =
      (users.filter (fun u => deliverOk u.1)).map
        (fun u => (u.1, summary_text reports tasks u.1 u.2)) ∧
    daily_summary [("1", "a"), ("2", "b"), ("3", "c")] reports tasks
        (fun u => !(u = "2")) =
      [("1", summary_text reports tasks "1" "a"),
       ("3", summary_text reports tasks "3" "c")] := by
  have main : ∀ us : UsersDoc,
      daily_summary us reports tasks deliverOk =
        (us.filter (fun u => deliverOk u.1)).map
          (fun u => (u.1, summary_text reports tasks u.1 u.2)) := by
    intro us
    induction us with
    | nil => rfl
    | cons u rest ih =>
      obtain ⟨uid, name⟩ := u
      cases h : deliverOk uid
      · simp [daily_summary, List.filter_cons, h, ih]
      · simp [daily_summary, List.filter_cons, h, ih]
  exact ⟨main users, rfl⟩

/-! ## C8: bare `/show` does not fall back to the sender's name -/

/-- C8 (code bug): a sender named "Ali", present in `users` and holding a
report, sends exactly "/show"; `replace("/show ", "")` does not touch the
bare command, so the literal string "/show" is looked up as a name and
the handler replies "not found" instead of showing the sender's reports.
The sender-name fallback is reached only when the message carries a
trailing space. -/
theorem c8_show_default_name_bug :
    show_reports [("1", "Ali")] [("1", [ReportRec.mk "wrote code" "t1"])]
        "Ali" "/show" = ShowReply.notFound ∧
    show_reports [("1", "Ali")] [("1", [ReportRec.mk "wrote code" "t1"])]
        "Ali" "/show " =
      ShowReply.shown ("آخرین گزارش‌ها:\n\n" ++ "- wrote code") :=
  ⟨rfl, rfl⟩

/-! ## C10: handlers strip every occurrence of the command substring -/

/-- A scan that finds no occurrence of the pattern leaves the text
unchanged. -/
theorem replaceAllFuel_no_occurrence (pat rep : List Char) :
    ∀ (fuel : Nat) (s : List Char), containsSub pat s = false →
      replaceAllFuel pat rep fuel s = s := by
  intro fuel
  induction fuel with
  | zero => intro s h; rfl
  | succ f ih =>
    intro s h
    cases s with
    | nil => rfl
    | cons c cs =>
      unfold containsSub at h
      have h1 : pat.isPrefixOf (c :: cs) = false :=
        (Bool.or_eq_false_iff.mp h).1
      have h2 : containsSub pat cs = false :=
        (Bool.or_eq_false_iff.mp h).2
      have hcond : ¬(pat.isPrefixOf (c :: cs) = true ∧ pat ≠ []) :=
        fun hc => by
          rw [h1] at hc
          exact Bool.noConfusion hc.1
      simp only [replaceAllFuel, if_neg hcond]
      rw [ih cs h2]

/-- Python `replace` on a text with no occurrence of the pattern is the
identity. -/
theorem pyReplace_no_occurrence (s pat rep : String)
    (h : containsSubStr s pat = false) : pyReplace s pat rep = s := by
  unfold containsSubStr at h
  unfold pyReplace
  rw [replaceAllFuel_no_occurrence pat.data rep.data s.data.length s.data h]

/-- Only the empty pattern is a prefix of the empty text. -/
theorem isPrefixOf_nil_true {pat : List Char} (h : pat.isPrefixOf [] = true) :
    pat = [] := by
  cases pat with
  | nil => rfl
  | cons a as => simp [List.isPrefixOf] at h

/-- A prefix is no longer than the text it prefixes. -/
theorem isPrefixOf_length_le {pat l : List Char}
    (h : pat.isPrefixOf l = true) : pat.length ≤ l.length := by
  induction pat generalizing l with
  | nil => simp
  | cons a as ih =>
    cases l with
    | nil => simp [List.isPrefixOf] at h
    | cons b bs =>
      simp only [List.isPrefixOf, Bool.and_eq_true] at h
      have := ih h.2
      simp only [List.length_cons]
      omega

/-- Deleting occurrences (empty replacement) never lengthens the text. -/
theorem replaceAllFuel_del_length_le (pat : List Char) :
    ∀ (fuel : Nat) (s : List Char),
      (replaceAllFuel pat [] fuel s).length ≤ s.length := by
  intro fuel
  induction fuel with
  | zero => intro s; simp [replaceAllFuel]
  | succ f ih =>
    intro s
    cases s with
    | nil => simp [replaceAllFuel]
    | cons c cs =>
      by_cases hc : pat.isPrefixOf (c :: cs) = true ∧ pat ≠ []
      · simp only [replaceAllFuel, if_pos hc, List.nil_append]
        have h1 := ih ((c :: cs).drop pat.length)
        have h2 : ((c :: cs).drop pat.length).length ≤ (c :: cs).length := by
          rw [List.length_drop]
          exact Nat.sub_le _ _
        omega
      · simp only [replaceAllFuel, if_neg hc]
        have := ih cs
        simp only [List.length_cons]
        omega

/-- Deleting the occurrences of a non-empty pattern from a text that
contains it shortens the text by at least the pattern's length. -/
theorem replaceAllFuel_del_shortens (pat : List Char) (hpat : pat ≠ []) :
    ∀ (fuel : Nat) (s : List Char), s.length ≤ fuel →
      containsSub pat s = true →
      (replaceAllFuel pat [] fuel s).length + pat.length ≤ s.length := by
  intro fuel
  induction fuel with
  | zero =>
    intro s hlen hocc
    have hs : s = [] := List.length_eq_zero.mp (Nat.le_zero.mp hlen)
    subst hs
    exact absurd (isPrefixOf_nil_true hocc) hpat
  | succ f ih =>
    intro s hlen hocc
    cases s with
    | nil => exact absurd (isPrefixOf_nil_true hocc) hpat
    | cons c cs =>
      by_cases hp : pat.isPrefixOf (c :: cs) = true
      · have hcond : pat.isPrefixOf (c :: cs) = true ∧ pat ≠ [] :=
          ⟨hp, hpat⟩
        simp only [replaceAllFuel, if_pos hcond, List.nil_append]
        have h1 := replaceAllFuel_del_length_le pat f ((c :: cs).drop pat.length)
        have h2 : ((c :: cs).drop pat.length).length =
            (c :: cs).length - pat.length := List.length_drop _ _
        have h3 := isPrefixOf_length_le hp
        omega
      · have hcond : ¬(pat.isPrefixOf (c :: cs) = true ∧ pat ≠ []) :=
          fun hc => hp hc.1
        simp only [replaceAllFuel, if_neg hcond]
        have hocc2 : containsSub pat cs = true := by
          unfold containsSub at hocc
          rcases Bool.or_eq_true_iff.mp hocc with h | h
          · exact absurd h hp
          · exact h
        have hlen2 : cs.length ≤ f := by
          simp only [List.length_cons] at hlen
          omega
        have := ih cs hlen2 hocc2
        simp only [List.length_cons]
        omega

/-- Python `replace(pat, "")` on a message containing the non-empty
pattern strips at least one whole occurrence: the result is shorter by at
least the pattern's length, so the stored text differs from the message
body. -/
theorem pyReplace_strip_shortens (msg pat : String) (hpat : pat.data ≠ [])
    (h : containsSubStr msg pat = true) :
    (pyReplace msg pat "").length + pat.length ≤ msg.length ∧
    pyReplace msg pat "" ≠ msg := by
  have hb : (replaceAllFuel pat.data [] msg.data.length msg.data).length +
      pat.data.length ≤ msg.data.length :=
    replaceAllFuel_del_shortens pat.data hpat msg.data.length msg.data
      le_rfl h
  refine ⟨hb, fun he => ?_⟩
  have hd : (pyReplace msg pat "").data = msg.data := congrArg String.data he
  have hb2 : (pyReplace msg pat "").data.length + pat.data.length ≤
      msg.data.length := hb
  rw [hd] at hb2
  have hz : pat.data.length = 0 := by omega
  exact hpat (List.length_eq_zero.mp hz)

/-- One `add_task` mutation appends exactly one task at the end of the
id's sequence. -/
theorem task_store_list (d : TasksDoc) (uid t tm : String) :
    list_tasks (task_store d uid t tm) uid =
      list_tasks d uid ++ [TaskRec.mk t false tm] := by
  unfold task_store
  by_cases h : dictContains d uid = true
  · simp only [if_pos h]
    unfold list_tasks dictGetD
    rw [dictGet?_set_self]
    rfl
  · have hf : dictContains d uid = false := by
      cases hb : dictContains d uid
      · rfl
      · exact absurd hb h
    have hnone := dictGet?_of_not_contains d uid hf
    simp only [if_neg h]
    unfold list_tasks dictGetD
    simp [dictGet?_set_self, hnone]

/-- C10: the handlers always store `replace(command, "")` of the message;
for every message containing `"/report "` (resp. `"/task "`) — leading or
mid-text — the stored text is at least one whole occurrence shorter than
and therefore differs from the message body, while a message with no such
occurrence (in particular a bare "/report" or "/task" without trailing
space) is stored verbatim, command word included. -/
theorem c10_command_strip_all_occurrences (users : UsersDoc)
    (reports : ReportsDoc) (tasks : TasksDoc) (uid sn msg time : String) :
    list_reports (report_handler users reports uid sn msg time).2 uid =
      list_reports reports uid ++
        [ReportRec.mk (pyReplace msg "/report " "") time] ∧
    (containsSubStr msg "/report " = true →
      (pyReplace msg "/report " "").length + "/report ".length ≤
          msg.length ∧
      pyReplace msg "/report " "" ≠ msg) ∧
    (containsSubStr msg "/report " = false →
      list_reports (report_handler users reports uid sn msg time).2 uid =
        list_reports reports uid ++ [ReportRec.mk msg time]) ∧
    list_reports
        (report_handler [] [] "1" "A" "start /report mid /report end"
          "t").2 "1" =
      [ReportRec.mk "start mid end" "t"] ∧
    list_reports (report_handler [] [] "1" "A" "/report" "t").2 "1" =
      [ReportRec.mk "/report" "t"] ∧
    list_tasks (add_task_handler users tasks uid sn msg time).2 uid =
      list_tasks tasks uid ++
        [TaskRec.mk (pyReplace msg "/task " "") false time] ∧
    (containsSubStr msg "/task " = true →
      (pyReplace msg "/task " "").length + "/task ".length ≤ msg.length ∧
      pyReplace msg "/task " "" ≠ msg) ∧
    (containsSubStr msg "/task " = false →
      list_tasks (add_task_handler users tasks uid sn msg time).2 uid =
        list_tasks tasks uid ++ [TaskRec.mk msg false time]) ∧
    list_tasks (add_task_handler [] [] "1" "A" "a /task b" "t").2 "1" =
      [TaskRec.mk "a b" false "t"] ∧
    list_tasks (add_task_handler [] [] "1" "A" "/task" "t").2 "1" =
      [TaskRec.mk "/task" false "t"] := by
  refine ⟨report_store_list reports uid (pyReplace msg "/report " "") time,
    fun h => pyReplace_strip_shortens msg "/report " (by decide) h,
    fun h => ?_, rfl, rfl,
    task_store_list tasks uid (pyReplace msg "/task " "") time,
    fun h => pyReplace_strip_shortens msg "/task " (by decide) h,
    fun h => ?_, rfl, rfl⟩
  · rw [show (report_handler users reports uid sn msg time).2 =
        report_store reports uid (pyReplace msg "/report " "") time from rfl]
    rw [pyReplace_no_occurrence msg "/report " "" h, report_store_list]
  · rw [show (add_task_handler users tasks uid sn msg time).2 =
        task_store tasks uid (pyReplace msg "/task " "") time from rfl]
    rw [pyReplace_no_occurrence msg "/task " "" h, task_store_list]

/-- C10 witness: an ordinary message containing neither command substring
is stored verbatim by both handlers, while messages carrying the command
substrings mid-text come out strictly shorter and different. -/
theorem c10_command_strip_all_occurrences_witness :
    list_reports (report_handler [] [] "9" "A" "plain text" "t").2 "9" =
      [ReportRec.mk "plain text" "t"] ∧
    list_tasks (add_task_handler [] [] "9" "A" "plain text" "t").2 "9" =
      [TaskRec.mk "plain text" false "t"] ∧
    ((pyReplace "start /report mid /report end" "/report " "").length +
        "/report ".length ≤ "start /report mid /report end".length ∧
      pyReplace "start /report mid /report end" "/report " "" ≠
        "start /report mid /report end") ∧
    ((pyReplace "a /task b" "/task " "").length + "/task ".length ≤
        "a /task b".length ∧
      pyReplace "a /task b" "/task " "" ≠ "a /task b") :=
  ⟨(c10_command_strip_all_occurrences [] [] [] "9" "A" "plain text"
      "t").2.2.1 (by decide),
   (c10_command_strip_all_occurrences [] [] [] "9" "A" "plain text"
      "t").2.2.2.2.2.2.2.1 (by decide),
   (c10_command_strip_all_occurrences [] [] [] "9" "A"
      "start /report mid /report end" "t").2.1 (by decide),
   (c10_command_strip_all_occurrences [] [] [] "9" "A" "a /task b"
      "t").2.2.2.2.2.2.1 (by decide)⟩

end RedCircleBot
